import Mathlib

/-!
Verification of the objectfilter engine (plaso/lib/objectfilter.py): a shallow
embedding of the value model, the comparison operators, the value-expansion
engine, the compiled filter tree, and the lexer/parser state machine, together
with theorems settling the specification claims.

Python values are modelled by the inductive `Value` below (Python 3 semantics,
`py2to3.STRING_TYPES = (str,)`).  Bytes, object methods and user-defined
dunder methods are not modelled: no claim exercises them.  Python floats are
modelled as exact rationals; the difference is unobservable for the inputs in
this development.  Exceptions are modelled by `Except PyErr`; a generator run
is modelled by `Gen`: the list of yielded values followed by an optional
terminal exception (an exception always ends a generator).
-/

/-- Model of the Python values the filter engine operates on. -/
inductive Value where
  | none
  | int (n : Int)
  | float (q : Rat)
  | str (s : String)
  | list (vs : List Value)
  | dict (entries : List (String × Value))
  | obj (attrs : List (String × Value))
  deriving Repr

/-- Model of the Python exceptions reachable in objectfilter.py.
`parseError` is `errors.ParseError` raised with a plain message;
`lexError` is `errors.ParseError` as raised by `Parser.Error`, which always
embeds the processed/unprocessed buffer split (the position is the length of
the processed part).  `fuelExhausted` is a modelling artifact of the fuel
bounds placed on the lexing loop; it never occurs for the inputs considered
in the theorems below. -/
inductive PyErr where
  | typeError
  | valueError
  | attributeError
  | indexError
  | parseError (msg : String)
  | lexError (msg : String) (processed : List Char) (remaining : List Char)
  | fuelExhausted
  deriving Repr, DecidableEq

/-- Python `x is None`. -/
def Value.isNone : Value → Bool
  | .none => true
  | _ => false

/-- Python `iter(x)`: `some` of the element sequence for iterable values
(`dict` iterates over its keys, `str` over its one-character substrings),
`none` when `iter` raises TypeError. -/
def iterElems : Value → Option (List Value)
  | .list vs => some vs
  | .str s => some (s.data.map (fun c => Value.str (String.mk [c])))
  | .dict entries => some (entries.map (fun kv => Value.str kv.1))
  | _ => Option.none

mutual

/-- Python `x == y` on the modelled value universe (never raises): numeric
cross-type equality between int and float, element-wise list equality,
order-insensitive dict equality.  Default object equality (identity) is
approximated structurally; no theorem below compares two `obj` values. -/
def pyEq : Value → Value → Bool
  | .none, .none => true
  | .int a, .int b => a == b
  | .int a, .float b => (a : Rat) == b
  | .float a, .int b => a == (b : Rat)
  | .float a, .float b => a == b
  | .str a, .str b => a == b
  | .list xs, .list ys => pyEqList xs ys
  | .dict xs, .dict ys => xs.length == ys.length && pyEqEntries xs ys
  | .obj a, .obj b => pyEqAttrs a b
  | _, _ => false
termination_by structural x _ => x

def pyEqList : List Value → List Value → Bool
  | [], [] => true
  | x :: xs, y :: ys => pyEq x y && pyEqList xs ys
  | _, _ => false
termination_by structural x _ => x

def pyEqEntries : List (String × Value) → List (String × Value) → Bool
  | [], _ => true
  | kv :: rest, ys =>
    (match ys.lookup kv.1 with
     | some w => pyEq kv.2 w
     | Option.none => false) && pyEqEntries rest ys
termination_by structural x _ => x

def pyEqAttrs : List (String × Value) → List (String × Value) → Bool
  | [], [] => true
  | (k, v) :: xs, (k2, v2) :: ys => k == k2 && pyEq v v2 && pyEqAttrs xs ys
  | _, _ => false
termination_by structural x _ => x

end

/-- Python `str.lower()` on ASCII input (character-wise lowering; defined
on the character list so that it reduces definitionally). -/
def strLower (s : String) : String := String.mk (s.data.map Char.toLower)

/-- Python substring containment on character lists (`needle in haystack`,
with the empty needle contained everywhere). -/
def subList (need : List Char) : List Char → Bool
  | [] => need.isEmpty
  | c :: rest => need.isPrefixOf (c :: rest) || subList need rest

mutual

/-- Python comparison (`<`, `<=`, `>`, `>=`) as a three-way compare:
ints/floats numerically, strings lexicographically, lists lexicographically
(pairwise `==` then `<` on the first difference), TypeError otherwise. -/
def pyCmp : Value → Value → Except PyErr Ordering
  | .int a, .int b => .ok (compare a b)
  | .int a, .float b => .ok (compare (a : Rat) b)
  | .float a, .int b => .ok (compare a (b : Rat))
  | .float a, .float b => .ok (compare a b)
  | .str a, .str b => .ok (compare a b)
  | .list xs, .list ys => pyCmpList xs ys
  | _, _ => .error .typeError
termination_by structural x _ => x

def pyCmpList : List Value → List Value → Except PyErr Ordering
  | [], [] => .ok .eq
  | [], _ :: _ => .ok .lt
  | _ :: _, [] => .ok .gt
  | x :: xs, y :: ys => if pyEq x y then pyCmpList xs ys else pyCmp x y
termination_by structural x _ => x

end

/-- Python `needle in container`: list membership by `==`, case-sensitive
substring for strings (TypeError when the needle is not a string), dict key
membership (TypeError for unhashable needles; the modelled dicts have string
keys, so any other hashable needle is simply absent), TypeError when the
container supports no membership test. -/
def pyIn (needle container : Value) : Except PyErr Bool :=
  match container with
  | .list vs => .ok (vs.any (fun v => pyEq needle v))
  | .str s =>
    match needle with
    | .str t => .ok (subList t.data s.data)
    | _ => .error .typeError
  | .dict entries =>
    match needle with
    | .str t => .ok ((entries.lookup t).isSome)
    | .list _ => .error .typeError
    | .dict _ => .error .typeError
    | _ => .ok false
  | _ => .error .typeError

/-- `Contains.Operation`: when the candidate `x` is a text string the code
evaluates `y.lower() in x.lower()`; `y.lower()` raises AttributeError when
the right operand is not a string.  Otherwise it evaluates `y in x`. -/
def ContainsOperation (x y : Value) : Except PyErr Bool :=
  match x with
  | .str s =>
    match y with
    | .str t => .ok (subList (t.data.map Char.toLower) (s.data.map Char.toLower))
    | _ => .error .attributeError
  | _ => pyIn y x

/-- The `value not in y` loop body of `InSet.Operation`: every element of the
candidate must be contained in the right operand; a TypeError raised inside
the loop is caught and returned as False. -/
def inSetAll : List Value → Value → Except PyErr Bool
  | [], _ => .ok true
  | e :: es, y =>
    match pyIn e y with
    | .error .typeError => .ok false
    | .error err => .error err
    | .ok false => .ok false
    | .ok true => inSetAll es y

/-- `InSet.Operation`: `x in y` first (raised TypeErrors propagate to
`Operate`, which catches them); then strings are treated as non-matching
leaves; then iterables are checked element-wise with TypeErrors caught;
non-iterables give False. -/
def InSetOperation (x y : Value) : Except PyErr Bool :=
  match pyIn x y with
  | .error e => .error e
  | .ok true => .ok true
  | .ok false =>
    match x with
    | .str _ => .ok false
    | _ =>
      match iterElems x with
      | Option.none => .ok false
      | some elems => inSetAll elems y

/-- The comparison operator classes modelled here (`Regexp` and
`RegexpInsensitive` are not modelled: no claim exercises them).
`NotEquals` is `Equals` with `bool_value` initialised to False, so it is
represented by `equals` together with the node's `bool_value`. -/
inductive OpKind where
  | equals
  | less
  | lessEqual
  | greater
  | greaterEqual
  | contains
  | inSet
  deriving Repr, DecidableEq

/-- `Operation(x, y)` of each modelled `GenericBinaryOperator` subclass. -/
def Operation : OpKind → Value → Value → Except PyErr Bool
  | .equals, x, y => .ok (pyEq x y)
  | .less, x, y => (pyCmp x y).map (fun o => o == .lt)
  | .lessEqual, x, y => (pyCmp x y).map (fun o => o != .gt)
  | .greater, x, y => (pyCmp x y).map (fun o => o == .gt)
  | .greaterEqual, x, y => (pyCmp x y).map (fun o => o != .lt)
  | .contains, x, y => ContainsOperation x y
  | .inSet, x, y => InSetOperation x y

/-- `GenericBinaryOperator.Operate`: scan the expanded values; a TypeError or
ValueError raised by `Operation` means "this candidate does not match"; any
other exception propagates; True as soon as one candidate matches. -/
def Operate (k : OpKind) (y : Value) : List Value → Except PyErr Bool
  | [] => .ok false
  | v :: vs =>
    match Operation k v y with
    | .ok true => .ok true
    | .ok false => Operate k y vs
    | .error .typeError => Operate k y vs
    | .error .valueError => Operate k y vs
    | .error e => .error e

/-- The three value-expander strategies (`AttributeValueExpander`,
`LowercaseAttributeValueExpander`, `DictValueExpander`). -/
inductive Exp where
  | attribute
  | lowercaseAttribute
  | dict
  deriving Repr, DecidableEq

/-- `_GetAttributeName`: `path[0]`, lowercased by
`LowercaseAttributeValueExpander`. -/
def attrName : Exp → String → String
  | .lowercaseAttribute, s => strLower s
  | _, s => s

/-- `_GetValue`: `getattr(obj, name, None)` for the attribute expanders
(values other than `obj` have none of the looked-up data attributes; methods
are not modelled) and `obj.get(name, None)` for the dict expander
(AttributeError on values with no `get` method). -/
def getValue : Exp → Value → String → Except PyErr Value
  | .dict, .dict entries, name => .ok ((entries.lookup name).getD .none)
  | .dict, _, _ => .error .attributeError
  | _, .obj attrs, name => .ok ((attrs.lookup name).getD .none)
  | _, _, _ => .ok .none

/-- Python `path.split('.')` on a string path: always at least one segment. -/
def splitOnDot (cs : List Char) : List (List Char) :=
  match cs with
  | [] => [[]]
  | c :: rest =>
    match splitOnDot rest with
    | [] => [[]]
    | seg :: segs => if c == '.' then [] :: seg :: segs else (c :: seg) :: segs

/-- `FIELD_SEPARATOR` splitting producing the segment strings. -/
def splitPath (s : String) : List String :=
  (splitOnDot s.data).map (fun l => String.mk l)

/-- One run of a Python generator: the values it yields, then either normal
exhaustion (`err = none`) or a raised exception (`err = some e`). -/
structure Gen where
  vals : List Value
  err : Option PyErr
  deriving Repr

/-- Generator concatenation: a raised exception cuts off everything after. -/
def genAppend (a b : Gen) : Gen :=
  match a.err with
  | some _ => a
  | Option.none => ⟨a.vals ++ b.vals, b.err⟩

/-- Flattening a sequence of generator runs (`yield from` in a loop). -/
def genConcat (gs : List Gen) : Gen :=
  gs.foldl genAppend ⟨[], Option.none⟩

/-- `ValueExpander.Expand` (with `_AtLeaf` and `_AtNonLeaf` inlined), by
recursion on the split path.  A `None` resolution yields nothing; the last
segment yields the resolved value itself; at a non-final segment a dict is
yielded whole, an iterable value (including a string, whose characters are
iterated) fans out each element against the remaining path, and a
non-iterable value (the TypeError branch) recurses with the value itself.
An empty path indexes `path[0]` out of range (unreachable from `Matches`,
where the path comes from `splitPath`). -/
def Expand (e : Exp) : List String → Value → Gen
  | [] => fun _ => ⟨[], some .indexError⟩
  | seg :: rest =>
    let f := Expand e rest
    fun obj =>
      match getValue e obj (attrName e seg) with
      | .error err => ⟨[], some err⟩
      | .ok v =>
        if v.isNone then ⟨[], Option.none⟩
        else if rest.isEmpty then ⟨[v], Option.none⟩
        else
          match v with
          | .dict entries => ⟨[.dict entries], Option.none⟩
          | _ =>
            match iterElems v with
            | some elems => genConcat (elems.map f)
            | Option.none => f v

/-- The compiled evaluation-tree nodes (`Filter` subclasses): `AndFilter`,
`OrFilter`, `IdentityFilter`, `Context`, and the `GenericBinaryOperator`
subclasses characterised by an `OpKind`, the left path, the right operand
and the node's `bool_value`. -/
inductive Filt where
  | identity
  | and (cs : List Filt)
  | or (cs : List Filt)
  | context (path : String) (cond : Filt)
  | binOp (kind : OpKind) (leftOperand : Option String) (rightOperand : Value) (boolValue : Bool)
  deriving Repr

/-- Inner loop of `Context.Matches`: test each `sub_object` of one yielded
`object_list` against the wrapped condition. -/
def ctxElems (f : Value → Except PyErr Bool) : List Value → Except PyErr Bool
  | [] => .ok false
  | el :: els =>
    match f el with
    | .error e => .error e
    | .ok true => .ok true
    | .ok false => ctxElems f els

/-- Outer loop of `Context.Matches`: lazily pull each yielded value and
iterate over its elements (`for sub_object in object_list` raises TypeError
on a non-iterable yielded value); the generator's terminal exception fires
only when the loop runs past the last yielded value. -/
def ctxValsGo (f : Value → Except PyErr Bool) :
    List Value → Option PyErr → Except PyErr Bool
  | [], Option.none => .ok false
  | [], some e => .error e
  | v :: vs, errq =>
    match iterElems v with
    | Option.none => .error .typeError
    | some elems =>
      match ctxElems f elems with
      | .error er => .error er
      | .ok true => .ok true
      | .ok false => ctxValsGo f vs errq

/-- `Context.Matches` applied to one expansion run. -/
def ctxVals (f : Value → Except PyErr Bool) (g : Gen) : Except PyErr Bool :=
  ctxValsGo f g.vals g.err

/-- `GenericBinaryOperator.Matches` applied to one expansion run:
`values = list(...)` re-raises the generator's terminal exception; then
`if values and self.Operate(values): return self.bool_value` /
`return not self.bool_value`. -/
def binOpMatches (k : OpKind) (right : Value) (bv : Bool) (g : Gen) :
    Except PyErr Bool :=
  match g.err with
  | some er => .error er
  | Option.none =>
    if g.vals.isEmpty then .ok (!bv)
    else
      match Operate k right g.vals with
      | .error er => .error er
      | .ok b => .ok (if b then bv else !bv)

mutual

/-- `Matches(obj)` of each evaluation-tree node, under expander `e`.
A `binOp` whose left operand is `None` (never produced by a completed parse)
would index `None[0]` in `_GetAttributeName`: TypeError. -/
def Matches (e : Exp) : Filt → Value → Except PyErr Bool
  | .identity, _ => .ok true
  | .and cs, obj => MatchesAll e cs obj
  | .or cs, obj => if cs.isEmpty then .ok true else MatchesAny e cs obj
  | .context path cond, obj =>
    ctxVals (Matches e cond) (Expand e (splitPath path) obj)
  | .binOp k left right bv, obj =>
    match left with
    | Option.none => .error .typeError
    | some lp => binOpMatches k right bv (Expand e (splitPath lp) obj)
termination_by structural f _ => f

/-- `AndFilter.Matches`: children in stored order, short-circuit on False. -/
def MatchesAll (e : Exp) : List Filt → Value → Except PyErr Bool
  | [], _ => .ok true
  | c :: cs, obj =>
    match Matches e c obj with
    | .error er => .error er
    | .ok false => .ok false
    | .ok true => MatchesAll e cs obj
termination_by structural l _ => l

/-- The loop of `OrFilter.Matches` (its empty-arguments early `return True`
is handled in `Matches`): children in stored order, short-circuit on True. -/
def MatchesAny (e : Exp) : List Filt → Value → Except PyErr Bool
  | [], _ => .ok false
  | c :: cs, obj =>
    match Matches e c obj with
    | .error er => .error er
    | .ok true => .ok true
    | .ok false => MatchesAny e cs obj
termination_by structural l _ => l

end

/-- The parser's AST nodes (`IdentityExpression`, `BasicExpression`,
`BinaryExpression`, `ContextExpression`).  A `BinaryExpression` starts with
an empty operand list on the parse stack; `AddOperands` fills in exactly two.
A `ContextExpression` starts with no argument; `SetExpression` fills in one. -/
inductive Expr where
  | identity
  | basic (attr : Option String) (operator : Option String)
      (args : List Value) (boolValue : Bool)
  | binary (operator : String) (args : List Expr)
  | context (attr : String) (args : List Expr)
  deriving Repr

/-- `BaseFilterImplementation.OPS` restricted to the modelled operators
(`regexp`/`iregexp` omitted: no claim exercises them).  Each name maps to
the operator kind and the class's initial `bool_value` (False only for
`NotEquals`). -/
def OPS : List (String × (OpKind × Bool)) :=
  [("equals", (.equals, true)), ("is", (.equals, true)), ("==", (.equals, true)),
   ("!=", (.equals, false)), ("contains", (.contains, true)),
   (">", (.greater, true)), (">=", (.greaterEqual, true)),
   ("<", (.less, true)), ("<=", (.lessEqual, true)),
   ("inset", (.inSet, true))]

mutual

/-- `Expression.Compile` against `BaseFilterImplementation`.
`BasicExpression.Compile` looks up the lowercased operator (a `None`
operator would raise AttributeError on `.lower()`), builds
`arguments = [attribute] + args` which the `BinaryOperator` constructor
requires to have exactly two entries, and applies the parsed `not` through
`FlipBool`.  `BinaryExpression.Compile` checks its operator, then compiles
the operand list (of any length: `AndFilter`/`OrFilter` accept any number of
children).  `ContextExpression.Compile` compiles its arguments and the
`Context` constructor requires exactly two operands in total. -/
def CompileExpr : Expr → Except PyErr Filt
  | .identity => .ok .identity
  | .basic attr op args bv =>
    match op with
    | Option.none => .error .attributeError
    | some opStr =>
      match OPS.lookup (strLower opStr) with
      | Option.none =>
        .error (.parseError ("Unknown operator " ++ opStr ++ " provided."))
      | some (kind, initBv) =>
        match args with
        | [r] => .ok (.binOp kind attr r (if bv then initBv else !initBv))
        | _ => .error (.parseError "Only two operands are accepted. InvalidNumberOfOperands.")
  | .binary op args =>
    let low := strLower op
    if low == "and" || low == "&&" then
      match CompileList args with
      | .error e => .error e
      | .ok fs => .ok (.and fs)
    else if low == "or" || low == "||" then
      match CompileList args with
      | .error e => .error e
      | .ok fs => .ok (.or fs)
    else .error (.parseError ("Invalid binary operator " ++ low ++ "."))
  | .context attr args =>
    match CompileList args with
    | .error e => .error e
    | .ok [f] => .ok (.context attr f)
    | .ok _ => .error (.parseError "Context accepts only 2 operands. InvalidNumberOfOperands.")
termination_by structural x => x

def CompileList : List Expr → Except PyErr (List Filt)
  | [] => .ok []
  | e :: es =>
    match CompileExpr e with
    | .error err => .error err
    | .ok f =>
      match CompileList es with
      | .error err => .error err
      | .ok fs => .ok (f :: fs)
termination_by structural x => x

end

/-- The lexer states appearing in the token table.  State regexes in the
table are literal state names (matched by `re.match`, and no state name is a
proper prefix of another) or the match-anything pattern, modelled by
`Option LexState` in `TokenRule`. -/
inductive LexState where
  | INITIAL
  | CONTEXTOPEN
  | STRING
  | SQ_STRING
  | ATTRIBUTE
  | OPERATOR
  | CHECKNOT
  | ARG
  | BINARY
  deriving Repr, DecidableEq

def stateName : LexState → String
  | .INITIAL => "INITIAL"
  | .CONTEXTOPEN => "CONTEXTOPEN"
  | .STRING => "STRING"
  | .SQ_STRING => "SQ_STRING"
  | .ATTRIBUTE => "ATTRIBUTE"
  | .OPERATOR => "OPERATOR"
  | .CHECKNOT => "CHECKNOT"
  | .ARG => "ARG"
  | .BINARY => "BINARY"

/-- Entries of the parser's token stack: bracket markers and completed
expressions. -/
inductive StackItem where
  | lparen
  | rparen
  | expr (e : Expr)
  deriving Repr

/-- The `current_expression` accumulator (a `BasicExpression`). -/
structure CurExpr where
  attr : Option String
  operator : Option String
  args : List Value
  boolValue : Bool
  deriving Repr

def freshExpr : CurExpr := ⟨Option.none, Option.none, [], true⟩

/-- The mutable parser state: remaining buffer, processed buffer, lexer
state and state stack, token stack, current expression, the lazily-created
`flipped` attribute (`none` models "attribute not set"), and the string
accumulator `self.string` (`none` models its initial `None`). -/
structure PState where
  buffer : List Char
  processedBuffer : List Char
  state : LexState
  stateStack : List LexState
  stack : List StackItem
  currentExpression : CurExpr
  flipped : Option Bool
  strAcc : Option (List Char)
  deriving Repr

def squote : Char := Char.ofNat 39

/-- `\w` on ASCII input. -/
def isWordChar (c : Char) : Bool := c.isAlphanum || c == '_'

/-- The attribute character class of the token table. -/
def isAttrChar (c : Char) : Bool := isWordChar c || c == '.'

/-- `\s` on ASCII input. -/
def isSpaceChar (c : Char) : Bool :=
  c == ' ' || c == '\t' || c == '\n' || c == '\r' ||
  c == Char.ofNat 11 || c == Char.ofNat 12

/-- Case-insensitive literal prefix match (all token regexes carry `re.I`);
returns the consumed buffer characters with their original case. -/
def ciLit (lit : List Char) (buf : List Char) : Option (List Char) :=
  match lit, buf with
  | [], _ => some []
  | _ :: _, [] => Option.none
  | l :: ls, b :: bs =>
    if l.toLower == b.toLower then (ciLit ls bs).map (fun t => b :: t)
    else Option.none

/-- A matcher models one match regex applied at the start of the buffer:
the consumed text and, for the rules that use it, `match.group(1)`. -/
def MatchFn : Type := List Char → Option (List Char × Option (List Char))

def matchContextOp : MatchFn := fun buf =>
  match buf with
  | '@' :: rest =>
    let taken := rest.takeWhile isAttrChar
    if taken.isEmpty then Option.none else some ('@' :: taken, Option.none)
  | _ => Option.none

def matchOneNotSpaceParen : MatchFn := fun buf =>
  match buf with
  | c :: _ =>
    if isSpaceChar c || c == '(' || c == ')' then Option.none
    else some ([c], Option.none)
  | [] => Option.none

def matchLit (lit : Char) : MatchFn := fun buf =>
  match buf with
  | c :: _ => if c == lit then some ([c], Option.none) else Option.none
  | [] => Option.none

def matchHexEscape : MatchFn := fun buf =>
  match buf with
  | '\\' :: x :: a :: b :: _ =>
    if x.toLower == 'x' then some (['\\', x, a, b], some [a, b]) else Option.none
  | _ => Option.none

def matchEscape : MatchFn := fun buf =>
  match buf with
  | '\\' :: c :: _ => some (['\\', c], some [c])
  | _ => Option.none

def matchStrRun (quote : Char) : MatchFn := fun buf =>
  let taken := buf.takeWhile (fun c => c != '\\' && c != quote)
  if taken.isEmpty then Option.none else some (taken, Option.none)

def matchAttr : MatchFn := fun buf =>
  let taken := buf.takeWhile isAttrChar
  if taken.isEmpty then Option.none else some (taken, Option.none)

def matchNotSpace : MatchFn := fun buf =>
  (ciLit ['n', 'o', 't', ' '] buf).map (fun t => (t, Option.none))

/-- `(\w+|[<>!=]=?)`: a word-character run, or one of the comparison symbol
characters optionally followed by an equals sign. -/
def matchOperatorRe : MatchFn := fun buf =>
  match buf with
  | c :: rest =>
    if isWordChar c then some (c :: rest.takeWhile isWordChar, Option.none)
    else if c == '<' || c == '>' || c == '!' || c == '=' then
      match rest with
      | '=' :: _ => some ([c, '='], Option.none)
      | _ => some ([c], Option.none)
    else Option.none
  | [] => Option.none

def matchNotWord : MatchFn := fun buf =>
  (ciLit ['n', 'o', 't'] buf).map (fun t => (t, Option.none))

def matchWs : MatchFn := fun buf =>
  let taken := buf.takeWhile isSpaceChar
  if taken.isEmpty then Option.none else some (taken, Option.none)

/-- `([^not])` under `re.I`: any single character other than n, o, t in
either case. -/
def matchNotClass : MatchFn := fun buf =>
  match buf with
  | c :: _ =>
    if c.toLower == 'n' || c.toLower == 'o' || c.toLower == 't' then Option.none
    else some ([c], some [c])
  | [] => Option.none

def matchFloat : MatchFn := fun buf =>
  let d1 := buf.takeWhile Char.isDigit
  if d1.isEmpty then Option.none
  else
    match buf.drop d1.length with
    | '.' :: r2 =>
      let d2 := r2.takeWhile Char.isDigit
      if d2.isEmpty then Option.none
      else some (d1 ++ '.' :: d2, Option.none)
    | _ => Option.none

def matchHexInt : MatchFn := fun buf =>
  match buf with
  | '0' :: x :: rest =>
    if x.toLower == 'x' then
      let ds := rest.takeWhile Char.isDigit
      if ds.isEmpty then Option.none else some ('0' :: x :: ds, Option.none)
    else Option.none
  | _ => Option.none

def matchInt : MatchFn := fun buf =>
  let ds := buf.takeWhile Char.isDigit
  if ds.isEmpty then Option.none else some (ds, Option.none)

/-- `(?i)(and|or|\&\&|\|\|)` in declaration order. -/
def matchBinaryOp : MatchFn := fun buf =>
  match ciLit ['a', 'n', 'd'] buf with
  | some t => some (t, Option.none)
  | Option.none =>
    match ciLit ['o', 'r'] buf with
    | some t => some (t, Option.none)
    | Option.none =>
      match ciLit ['&', '&'] buf with
      | some t => some (t, Option.none)
      | Option.none =>
        match ciLit ['|', '|'] buf with
        | some t => some (t, Option.none)
        | Option.none => Option.none

/-- `.` with `re.DOTALL`: any single character. -/
def matchAnyChar : MatchFn := fun buf =>
  match buf with
  | c :: _ => some ([c], Option.none)
  | [] => Option.none

/-- The named lexer actions of the token table. -/
inductive LexAction where
  | ContextOperator
  | PushState
  | PushBack
  | BracketOpen
  | BracketClose
  | StoreAttribute
  | StoreOperator
  | FlipLogic
  | InsertIntArg
  | InsertFloatArg
  | InsertInt16Arg
  | StringStart
  | StringInsert
  | StringEscape
  | HexEscape
  | StringFinish
  | PopState
  | BinaryOperator
  deriving Repr, DecidableEq

/-- One entry of `Parser.tokens`. -/
structure TokenRule where
  stateRe : Option LexState
  matcher : MatchFn
  actions : List LexAction
  nextState : Option LexState

/-- `Parser.tokens`, in declaration order. -/
def tokens : List TokenRule :=
  [⟨some .INITIAL, matchContextOp, [.ContextOperator, .PushState], some .CONTEXTOPEN⟩,
   ⟨some .INITIAL, matchOneNotSpaceParen, [.PushState, .PushBack], some .ATTRIBUTE⟩,
   ⟨some .INITIAL, matchLit '(', [.PushState, .BracketOpen], Option.none⟩,
   ⟨some .INITIAL, matchLit ')', [.BracketClose], some .BINARY⟩,
   ⟨some .CONTEXTOPEN, matchLit '(', [.BracketOpen], some .INITIAL⟩,
   ⟨some .STRING, matchLit '"', [.PopState, .StringFinish], Option.none⟩,
   ⟨some .STRING, matchHexEscape, [.HexEscape], Option.none⟩,
   ⟨some .STRING, matchEscape, [.StringEscape], Option.none⟩,
   ⟨some .STRING, matchStrRun '"', [.StringInsert], Option.none⟩,
   ⟨some .SQ_STRING, matchLit squote, [.PopState, .StringFinish], Option.none⟩,
   ⟨some .SQ_STRING, matchHexEscape, [.HexEscape], Option.none⟩,
   ⟨some .SQ_STRING, matchEscape, [.StringEscape], Option.none⟩,
   ⟨some .SQ_STRING, matchStrRun squote, [.StringInsert], Option.none⟩,
   ⟨some .ATTRIBUTE, matchAttr, [.StoreAttribute], some .OPERATOR⟩,
   ⟨some .OPERATOR, matchNotSpace, [.FlipLogic], Option.none⟩,
   ⟨some .OPERATOR, matchOperatorRe, [.StoreOperator], some .CHECKNOT⟩,
   ⟨some .CHECKNOT, matchNotWord, [.FlipLogic], some .ARG⟩,
   ⟨some .CHECKNOT, matchWs, [], Option.none⟩,
   ⟨some .CHECKNOT, matchNotClass, [.PushBack], some .ARG⟩,
   ⟨some .ARG, matchFloat, [.InsertFloatArg], some .ARG⟩,
   ⟨some .ARG, matchHexInt, [.InsertInt16Arg], some .ARG⟩,
   ⟨some .ARG, matchInt, [.InsertIntArg], some .ARG⟩,
   ⟨some .ARG, matchLit '"', [.PushState, .StringStart], some .STRING⟩,
   ⟨some .ARG, matchLit squote, [.PushState, .StringStart], some .SQ_STRING⟩,
   ⟨some .BINARY, matchBinaryOp, [.BinaryOperator], some .INITIAL⟩,
   ⟨some .BINARY, matchWs, [], Option.none⟩,
   ⟨some .BINARY, matchAnyChar, [.PushBack, .PopState], Option.none⟩,
   ⟨Option.none, matchWs, [], Option.none⟩]

def digitVal (c : Char) : Nat := c.toNat - 48

def decimalVal (ds : List Char) : Nat :=
  ds.foldl (fun a c => a * 10 + digitVal c) 0

def isHexChar (c : Char) : Bool :=
  c.isDigit || (c.toLower.toNat ≥ 97 && c.toLower.toNat ≤ 102)

def hexDigitVal (c : Char) : Nat :=
  if c.isDigit then digitVal c else c.toLower.toNat - 87

def hexVal (ds : List Char) : Nat :=
  ds.foldl (fun a c => a * 16 + hexDigitVal c) 0

/-- `('is', 'contains', 'inset', 'equals')`: the operators against which the
keyword `not` is allowed. -/
def allowNot (op : String) : Bool :=
  strLower op == "is" || strLower op == "contains" ||
  strLower op == "inset" || strLower op == "equals"

/-- `Parser.FlipAllowed`.  Error messages throughout this model reproduce the
source messages with quote characters dropped and format placeholders
replaced by the formatted values. -/
def FlipAllowed (ps : PState) : Except PyErr Unit :=
  match ps.flipped with
  | Option.none => .error (.parseError "Not defined.")
  | some false => .ok ()
  | some true =>
    match ps.currentExpression.operator with
    | Option.none => .ok ()
    | some op =>
      if allowNot op then .ok ()
      else .error (.parseError ("Keyword not does not work against operator: " ++ op))

/-- `Parser.InsertArg` after the argument value has been converted: check
`FlipAllowed`, then `AddArg`; on completion push the expression, reset the
accumulator, and return the BINARY state override. -/
def InsertArgCommon (v : Value) (ps : PState) :
    Except PyErr (PState × Option LexState) :=
  match FlipAllowed ps with
  | .error e => .error e
  | .ok _ =>
    let cur := ps.currentExpression
    let args2 := cur.args ++ [v]
    if args2.length > 1 then
      .error (.parseError "Too many arguments for this expression.")
    else if args2.length == 1 then
      .ok ({ ps with
             stack := ps.stack ++ [.expr (.basic cur.attr cur.operator args2 cur.boolValue)],
             currentExpression := freshExpr }, some .BINARY)
    else
      .ok ({ ps with currentExpression := { cur with args := args2 } }, Option.none)

/-- One backslash escape decoded as `codecs.decode(string, 'unicode_escape')`
on the two-character match: recognised single-character escapes map to their
control character; the regex-flavoured ones (`\.`, `\w`, `\s`) decode to
themselves with the backslash kept. -/
def decodeEscape (c : Char) : List Char :=
  if c == 'r' then ['\r']
  else if c == 'n' then ['\n']
  else if c == 'b' then [Char.ofNat 8]
  else if c == 't' then ['\t']
  else if c == '.' then ['\\', '.']
  else if c == 'w' then ['\\', 'w']
  else if c == 's' then ['\\', 's']
  else [c]

/-- The semantics of one named action: the updated parser state and the
optional state override returned by the callback.  Raised exceptions are the
`Except` errors; appending to an unset string accumulator models the
TypeError Python would raise on `None += str` (unreachable: `StringStart`
always precedes). -/
def doAction (a : LexAction) (g0 : List Char) (g1 : Option (List Char))
    (ps : PState) : Except PyErr (PState × Option LexState) :=
  match a with
  | .ContextOperator =>
    .ok ({ ps with stack := ps.stack ++ [.expr (.context (String.mk (g0.drop 1)) [])] },
         Option.none)
  | .PushState =>
    .ok ({ ps with stateStack := ps.state :: ps.stateStack }, Option.none)
  | .PushBack =>
    .ok ({ ps with
           buffer := g0 ++ ps.buffer,
           processedBuffer := ps.processedBuffer.take (ps.processedBuffer.length - g0.length) },
         Option.none)
  | .BracketOpen => .ok ({ ps with stack := ps.stack ++ [.lparen] }, Option.none)
  | .BracketClose => .ok ({ ps with stack := ps.stack ++ [.rparen] }, Option.none)
  | .StoreAttribute =>
    .ok ({ ps with
           flipped := some false,
           currentExpression := { ps.currentExpression with attr := some (String.mk g0) } },
         some .OPERATOR)
  | .StoreOperator =>
    .ok ({ ps with
           currentExpression := { ps.currentExpression with operator := some (String.mk g0) } },
         Option.none)
  | .FlipLogic =>
    if ps.flipped == some true then
      .error (.parseError "The operator not can only be expressed once.")
    else if !ps.currentExpression.args.isEmpty then
      .error (.parseError "Unable to place the keyword not after an argument.")
    else
      let ps2 := { ps with flipped := some true }
      match FlipAllowed ps2 with
      | .error e => .error e
      | .ok _ =>
        .ok ({ ps2 with
               currentExpression :=
                 { ps2.currentExpression with boolValue := !ps2.currentExpression.boolValue } },
             Option.none)
  | .InsertIntArg =>
    if !g0.isEmpty && g0.all Char.isDigit then
      InsertArgCommon (.int (decimalVal g0)) ps
    else .error (.parseError (String.mk g0 ++ " is not a valid integer."))
  | .InsertFloatArg =>
    let intPart := g0.takeWhile (fun c => c != '.')
    let fracPart := (g0.dropWhile (fun c => c != '.')).drop 1
    if !intPart.isEmpty && !fracPart.isEmpty &&
        intPart.all Char.isDigit && fracPart.all Char.isDigit then
      InsertArgCommon
        (.float ((decimalVal intPart : Rat) +
          (decimalVal fracPart : Rat) / ((10 : Rat) ^ fracPart.length))) ps
    else .error (.parseError (String.mk g0 ++ " is not a valid float."))
  | .InsertInt16Arg =>
    match g0 with
    | '0' :: _x :: ds =>
      if !ds.isEmpty && ds.all isHexChar then
        InsertArgCommon (.int (hexVal ds)) ps
      else .error (.parseError (String.mk g0 ++ " is not a valid base16 integer."))
    | _ => .error (.parseError (String.mk g0 ++ " is not a valid base16 integer."))
  | .StringStart => .ok ({ ps with strAcc := some [] }, Option.none)
  | .StringInsert =>
    match ps.strAcc with
    | some s => .ok ({ ps with strAcc := some (s ++ g0) }, Option.none)
    | Option.none => .error .typeError
  | .StringEscape =>
    match g1 with
    | some [c] =>
      if c == '\\' || c == squote || c == '"' || c == 'r' || c == 'n' ||
          c == 'b' || c == 't' || c == '.' || c == 'w' || c == 's' then
        match ps.strAcc with
        | some s => .ok ({ ps with strAcc := some (s ++ decodeEscape c) }, Option.none)
        | Option.none => .error .typeError
      else .error (.parseError ("Invalid escape character " ++ String.mk g0 ++ "."))
    | _ => .error .typeError
  | .HexEscape =>
    match g1 with
    | some [a, b] =>
      if isHexChar a && isHexChar b then
        let byte := 16 * hexDigitVal a + hexDigitVal b
        if byte < 128 then
          match ps.strAcc with
          | some s => .ok ({ ps with strAcc := some (s ++ [Char.ofNat byte]) }, Option.none)
          | Option.none => .error .typeError
        else .error .valueError
      else .error (.parseError ("Invalid hex escape " ++ String.mk [a, b] ++ "."))
    | _ => .error .typeError
  | .StringFinish =>
    if ps.state == .ATTRIBUTE then
      .ok ({ ps with
             flipped := some false,
             currentExpression :=
               { ps.currentExpression with attr := some (String.mk (ps.strAcc.getD [])) } },
           some .OPERATOR)
    else if ps.state == .ARG then
      InsertArgCommon (.str (String.mk (ps.strAcc.getD []))) ps
    else .ok (ps, Option.none)
  | .PopState =>
    match ps.stateStack with
    | s :: rest => .ok ({ ps with state := s, stateStack := rest }, some s)
    | [] =>
      .error (.lexError "Tried to pop the state but failed - possible recursion error"
        ps.processedBuffer ps.buffer)
  | .BinaryOperator =>
    .ok ({ ps with stack := ps.stack ++ [.expr (.binary (String.mk g0) [])] }, Option.none)

/-- The message format of `Parser.Error`:
`message in position N: processed <----> remaining )`. -/
def formatErrorMsg (msg : String) (processed remaining : List Char) : String :=
  msg ++ " in position " ++ toString processed.length ++ ": " ++
    String.mk processed ++ " <----> " ++ String.mk remaining ++ " )"

/-- `NextToken` catches `ParseError` raised by an action and re-raises it
through `Parser.Error`, embedding the processed/unprocessed split at that
point; exceptions of other classes propagate unchanged. -/
def wrapActionErr (e : PyErr) (ps : PState) : PyErr :=
  match e with
  | .parseError m => .lexError m ps.processedBuffer ps.buffer
  | .lexError m p b => .lexError (formatErrorMsg m p b) ps.processedBuffer ps.buffer
  | other => other

/-- First token rule whose state regex matches the current state and whose
match regex matches the start of the buffer, in declaration order. -/
def findRule : List TokenRule → LexState → List Char →
    Option (TokenRule × List Char × Option (List Char))
  | [], _, _ => Option.none
  | r :: rs, st, buf =>
    if (match r.stateRe with | some s => s == st | Option.none => true) then
      match r.matcher buf with
      | some (g0, g1) => some (r, g0, g1)
      | Option.none => findRule rs st buf
    else findRule rs st buf

/-- The action loop of `NextToken`: run the callbacks left to right, letting
a returned state override the rule's declared next state (the CONTINUE
sentinel is never returned by the modelled actions). -/
def runActions : List LexAction → List Char → Option (List Char) → PState →
    Option LexState → Except PyErr (PState × Option LexState)
  | [], _, _, ps, ns => .ok (ps, ns)
  | a :: rest, g0, g1, ps, ns =>
    match doAction a g0 g1 ps with
    | .error e => .error (wrapActionErr e ps)
    | .ok (ps2, ov) =>
      runActions rest g0 g1 ps2 (match ov with | some s => some s | Option.none => ns)

/-- `Parser.NextToken`: consume the first matching rule's span onto the
processed buffer, run its actions, and install the (possibly overridden)
next state.  When no rule matches, `Error` raises a ParseError carrying the
processed/unprocessed split; the one-character consumption and `Error`-token
return written after that call in the source are unreachable, since `Error`
always raises. -/
def NextToken (ps : PState) : Except PyErr PState :=
  match findRule tokens ps.state ps.buffer with
  | Option.none =>
    .error (.lexError ("Expected " ++ stateName ps.state) ps.processedBuffer ps.buffer)
  | some (rule, g0, g1) =>
    let ps1 := { ps with
                 processedBuffer := ps.processedBuffer ++ g0,
                 buffer := ps.buffer.drop g0.length }
    match runActions rule.actions g0 g1 ps1 rule.nextState with
    | .error e => .error e
    | .ok (ps2, ns) =>
      .ok (match ns with | some s => { ps2 with state := s } | Option.none => ps2)

/-- `Parser.Close`: keep fetching tokens until the buffer is empty.  The
`Nat` fuel bounds the loop (Python's loop has no such bound; the generous
fuel used by `Parse` below never runs out on the inputs considered). -/
def Close : Nat → PState → Except PyErr PState
  | 0, _ => .error .fuelExhausted
  | fuel + 1, ps =>
    match NextToken ps with
    | .error e => .error e
    | .ok ps2 => if ps2.buffer.isEmpty then .ok ps2 else Close fuel ps2

/-- `_CombineParenthesis`: one pass over indices `0 .. len-3` of the stack,
nulling matched `( expression )` bracket pairs (mutations are visible to
later indices, as in the source's in-place loop). -/
def combineParens (l : List (Option StackItem)) : List (Option StackItem) :=
  (List.range (l.length - 2)).foldl
    (fun s i =>
      match s.get? i, s.get? (i + 1), s.get? (i + 2) with
      | some (some .lparen), some (some (.expr _)), some (some .rparen) =>
        (s.set i Option.none).set (i + 2) Option.none
      | _, _, _ => s)
    l

/-- `_CombineBinaryExpressions(operator)`: one pass over indices
`1 .. len-2`, merging a matching `BinaryExpression` that sits between two
completed expressions (its operand list is overwritten, the neighbours are
nulled). -/
def combineBinary (op : String) (l : List (Option StackItem)) :
    List (Option StackItem) :=
  (List.range' 1 (l.length - 2)).foldl
    (fun s i =>
      match s.get? i with
      | some (some (.expr (.binary bop _))) =>
        if strLower bop == strLower op then
          match s.get? (i - 1), s.get? (i + 1) with
          | some (some (.expr lhs)), some (some (.expr rhs)) =>
            ((s.set i (some (.expr (.binary bop [lhs, rhs])))).set (i - 1)
              Option.none).set (i + 1) Option.none
          | _, _ => s
        else s
      | _ => s)
    l

/-- `_CombineContext`: one pass over indices `len-1 .. 1` downwards,
attaching a completed expression to the `ContextExpression` immediately
before it (`SetExpression` replaces the context's argument list). -/
def combineContext (l : List (Option StackItem)) : List (Option StackItem) :=
  ((List.range' 1 (l.length - 1)).reverse).foldl
    (fun s i =>
      match s.get? (i - 1), s.get? i with
      | some (some (.expr (.context attr _))), some (some (.expr e)) =>
        (s.set (i - 1) (some (.expr (.context attr [e])))).set i Option.none
      | _, _ => s)
    l

/-- One full `Reduce` pass in precedence order, each rule followed by the
`filter(None, ...)` compaction. -/
def reducePass (l : List StackItem) : List StackItem :=
  let l1 := (combineParens (l.map some)).filterMap id
  let l2 := (combineBinary "and" (l1.map some)).filterMap id
  let l3 := (combineBinary "or" (l2.map some)).filterMap id
  (combineContext (l3.map some)).filterMap id

/-- The fixed-point loop of `Reduce`: stop at a single item or when a pass
makes no size change.  Each effective pass shrinks the stack, so fuel
`length + 1` suffices. -/
def reduceLoop : Nat → List StackItem → List StackItem
  | 0, l => l
  | fuel + 1, l =>
    if l.length ≤ 1 then l
    else
      let l2 := reducePass l
      if l2.length == l.length then l2 else reduceLoop fuel l2

/-- `Parser.Reduce`: sanity-check the final lexer state, run the reduction
loop, and require exactly one stack entry. -/
def Reduce (ps : PState) : Except PyErr StackItem :=
  if ps.state != .INITIAL && ps.state != .BINARY then
    .error (.lexError "Premature end of expression" ps.processedBuffer ps.buffer)
  else
    match reduceLoop (ps.stack.length + 1) ps.stack with
    | [item] => .ok item
    | _ => .error (.lexError "Illegal query expression" ps.processedBuffer ps.buffer)

/-- The parser state `Parser.__init__` builds for a query string. -/
def initPState (data : String) : PState :=
  ⟨data.data, [], .INITIAL, [], [], freshExpr, Option.none, Option.none⟩

/-- `Parser.Parse`: the empty filter string becomes `IdentityExpression`
without lexing; otherwise lex to exhaustion and reduce. -/
def Parse (data : String) : Except PyErr StackItem :=
  if data.data.isEmpty then .ok (.expr .identity)
  else
    match Close (data.length * 10 + 20) (initPState data) with
    | .error e => .error e
    | .ok ps => Reduce ps

/-! ### Helper definitions and lemmas for the claim theorems -/

/-- Whether one candidate value satisfies the operator predicate (an
`Operation` that raises is never a satisfying candidate). -/
def opSatisfies (k : OpKind) (y : Value) (v : Value) : Bool :=
  match Operation k v y with
  | .ok true => true
  | _ => false

lemma Operate_eq_any (k : OpKind) (y : Value) :
    ∀ vals : List Value,
      (∀ v ∈ vals, ∀ er, Operation k v y = .error er →
        er = .typeError ∨ er = .valueError) →
      Operate k y vals = .ok (vals.any (opSatisfies k y)) := by
  intro vals h
  induction vals with
  | nil => rfl
  | cons v vs ih =>
    have hv := h v (by simp)
    have hrest : ∀ w ∈ vs, ∀ er, Operation k w y = .error er →
        er = .typeError ∨ er = .valueError := fun w hw => h w (by simp [hw])
    simp only [Operate, List.any_cons]
    cases hop : Operation k v y with
    | ok b =>
      cases b with
      | true => simp [opSatisfies, hop]
      | false => simp [opSatisfies, hop, ih hrest]
    | error er =>
      rcases hv er hop with her | her <;>
        subst her <;> simp [opSatisfies, hop, ih hrest]

lemma ctxElems_total (f : Value → Except PyErr Bool) :
    ∀ elems : List Value, (∀ el ∈ elems, ∃ b, f el = .ok b) →
      ∃ b, ctxElems f elems = .ok b := by
  intro elems h
  induction elems with
  | nil => exact ⟨false, rfl⟩
  | cons el els ih =>
    obtain ⟨b, hb⟩ := h el (by simp)
    cases b with
    | true => exact ⟨true, by simp [ctxElems, hb]⟩
    | false =>
      obtain ⟨c, hc⟩ := ih (fun w hw => h w (by simp [hw]))
      exact ⟨c, by simp [ctxElems, hb, hc]⟩

lemma ctxElems_ok_true_iff (f : Value → Except PyErr Bool) :
    ∀ elems : List Value, (∀ el ∈ elems, ∃ b, f el = .ok b) →
      (ctxElems f elems = .ok true ↔ ∃ el ∈ elems, f el = .ok true) := by
  intro elems h
  induction elems with
  | nil => simp [ctxElems]
  | cons el els ih =>
    obtain ⟨b, hb⟩ := h el (by simp)
    have hrest : ∀ w ∈ els, ∃ c, f w = .ok c := fun w hw => h w (by simp [hw])
    cases b with
    | true =>
      have : ctxElems f (el :: els) = .ok true := by simp [ctxElems, hb]
      rw [this]
      exact iff_of_true rfl ⟨el, by simp, hb⟩
    | false =>
      have hstep : ctxElems f (el :: els) = ctxElems f els := by
        simp [ctxElems, hb]
      rw [hstep, ih hrest]
      constructor
      · rintro ⟨w, hw, hwt⟩
        exact ⟨w, List.mem_cons_of_mem el hw, hwt⟩
      · rintro ⟨w, hw, hwt⟩
        rcases List.mem_cons.mp hw with hweq | hwm
        · subst hweq; rw [hwt] at hb; simp at hb
        · exact ⟨w, hwm, hwt⟩

lemma ctxValsGo_ok_true_iff (f : Value → Except PyErr Bool) :
    ∀ vals : List Value,
      (∀ v ∈ vals, ∃ elems, iterElems v = some elems) →
      (∀ v ∈ vals, ∀ elems, iterElems v = some elems →
        ∀ el ∈ elems, ∃ b, f el = .ok b) →
      (ctxValsGo f vals Option.none = .ok true ↔
        ∃ v ∈ vals, ∃ elems, iterElems v = some elems ∧
          ∃ el ∈ elems, f el = .ok true) := by
  intro vals h1 h2
  induction vals with
  | nil => simp [ctxValsGo]
  | cons v vs ih =>
    obtain ⟨elems, helems⟩ := h1 v (by simp)
    have h1rest : ∀ w ∈ vs, ∃ es, iterElems w = some es :=
      fun w hw => h1 w (by simp [hw])
    have h2rest : ∀ w ∈ vs, ∀ es, iterElems w = some es →
        ∀ el ∈ es, ∃ b, f el = .ok b :=
      fun w hw => h2 w (by simp [hw])
    have htot := h2 v (by simp) elems helems
    obtain ⟨bI, hinner⟩ := ctxElems_total f elems htot
    cases bI with
    | true =>
      have hstep : ctxValsGo f (v :: vs) Option.none = .ok true := by
        simp [ctxValsGo, helems, hinner]
      rw [hstep]
      exact iff_of_true rfl
        ⟨v, by simp, elems, helems,
          (ctxElems_ok_true_iff f elems htot).mp hinner⟩
    | false =>
      have hstep : ctxValsGo f (v :: vs) Option.none =
          ctxValsGo f vs Option.none := by
        simp [ctxValsGo, helems, hinner]
      rw [hstep, ih h1rest h2rest]
      constructor
      · rintro ⟨w, hw, es, hes, el, hel, helt⟩
        exact ⟨w, List.mem_cons_of_mem v hw, es, hes, el, hel, helt⟩
      · rintro ⟨w, hw, es, hes, el, hel, helt⟩
        rcases List.mem_cons.mp hw with hweq | hwm
        · subst hweq
          rw [helems] at hes
          have hes2 : elems = es := Option.some.inj hes
          have hel2 : el ∈ elems := by rw [hes2]; exact hel
          have hT : ctxElems f elems = .ok true :=
            (ctxElems_ok_true_iff f elems htot).mpr ⟨el, hel2, helt⟩
          rw [hT] at hinner
          simp at hinner
        · exact ⟨w, hwm, es, hes, el, hel, helt⟩

lemma expand_getValue_none (e : Exp) (seg : String) (rest : List String)
    (obj : Value) (h : getValue e obj (attrName e seg) = .ok .none) :
    Expand e (seg :: rest) obj = ⟨[], Option.none⟩ := by
  simp [Expand, h, Value.isNone]

lemma splitOnDot_ne_nil : ∀ cs : List Char, splitOnDot cs ≠ [] := by
  intro cs
  cases cs with
  | nil => simp [splitOnDot]
  | cons c rest =>
    simp only [splitOnDot]
    split
    · simp
    · split <;> simp

lemma splitPath_ne_nil (s : String) : splitPath s ≠ [] := by
  simp [splitPath, splitOnDot_ne_nil]

lemma lookup_aNone_getD (s : String) :
    ((([("a", Value.none)] : List (String × Value)).lookup s).getD Value.none) =
      Value.none := by
  simp only [List.lookup]
  split <;> rfl

/-! ### Claim theorems -/

/-- C1, counterexample: the claim quantifies over every compiled comparison
operator node and asserts that `Matches` always returns `bool_value` or its
negation, with only TypeError/ValueError absorbed.  For a `Contains` node
with right operand `5` and a candidate whose `name` is the string "abc", the
expansion yields one candidate, no candidate satisfies the predicate (its
evaluation raises), so the claim requires the return of `not bool_value`
(False); instead `Operation` raises AttributeError (`5` has no `lower`),
which `Operate` does not catch, and `Matches` raises. -/
theorem C1_counterexample :
    Expand .attribute (splitPath "name") (.obj [("name", .str "abc")]) =
      ⟨[.str "abc"], Option.none⟩ ∧
    Matches .attribute (.binOp .contains (some "name") (.int 5) true)
      (.obj [("name", .str "abc")]) = .error .attributeError :=
  ⟨rfl, rfl⟩

/-- C1, amended: provided every `Operation` evaluation on the expanded
candidates raises at most TypeError or ValueError (true of `Equals`,
`NotEquals`, `Less`, `LessEqual`, `Greater`, `GreaterEqual` on all values,
but not of `Contains` with a non-string right operand against a string
candidate), `GenericBinaryOperator.Matches` returns `bool_value` exactly
when the expansion yields at least one candidate satisfying the predicate,
and the negation of `bool_value` when the expansion yields zero candidates
or none satisfies it. -/
theorem C1_theorem :
    ∀ (e : Exp) (k : OpKind) (lp : String) (right : Value) (bv : Bool)
      (obj : Value) (vals : List Value),
      Expand e (splitPath lp) obj = ⟨vals, Option.none⟩ →
      (∀ v ∈ vals, ∀ er, Operation k v right = .error er →
        er = .typeError ∨ er = .valueError) →
      Matches e (.binOp k (some lp) right bv) obj =
        .ok (if !vals.isEmpty && vals.any (opSatisfies k right) then bv else !bv) := by
  intro e k lp right bv obj vals hexp hop
  simp only [Matches]
  rw [hexp]
  cases vals with
  | nil => simp [binOpMatches]
  | cons a as =>
    simp only [binOpMatches, List.isEmpty_cons]
    rw [Operate_eq_any k right (a :: as) hop]
    simp

/-- C1 witness: the amended rule applied to `Equals` at a concrete input. -/
theorem C1_witness :
    Matches .attribute (.binOp .equals (some "a") (.int 1) true)
      (.obj [("a", .int 1)]) = .ok true :=
  C1_theorem .attribute .equals "a" (.int 1) true (.obj [("a", .int 1)])
    [.int 1] rfl (by intro v _ er h; simp [Operation] at h)

/-- C3: the claim ("`Matches` returns a boolean and never raises, for all
operators including Contains with a non-string right-hand literal applied to
a string candidate") states the code's evident intent — `Operate` absorbs
TypeError/ValueError so that type mismatches degrade to non-match — but the
code is wrong on exactly the highlighted case: the query
`field contains 7` compiles, and matching an object whose `field` is the
string "xyz" evaluates `(7).lower()`, raising an AttributeError that no
handler catches, so `Matches` raises instead of returning False. -/
theorem C3_theorem :
    Parse "field contains 7" =
      .ok (.expr (.basic (some "field") (some "contains") [.int 7] true)) ∧
    CompileExpr (.basic (some "field") (some "contains") [.int 7] true) =
      .ok (.binOp .contains (some "field") (.int 7) true) ∧
    Matches .attribute (.binOp .contains (some "field") (.int 7) true)
      (.obj [("field", .str "xyz")]) = .error .attributeError :=
  ⟨rfl, rfl, rfl⟩

/-- C8, counterexample: with the lexer in state ATTRIBUTE and the buffer
starting with a character no ATTRIBUTE-state rule accepts, the claim says
`NextToken` reports the error, consumes exactly one character and returns
the error token; instead `NextToken` raises the ParseError built by `Error`
(which always raises), so the buffer is not consumed and no token is
returned: the consume-and-continue lines are dead code. -/
theorem C8_counterexample :
    NextToken ⟨['('], "size ".data, .ATTRIBUTE, [], [], freshExpr,
        Option.none, Option.none⟩ =
      .error (.lexError "Expected ATTRIBUTE" ("size ".data) ['(']) := rfl

/-- C8, amended: whenever no token rule's state regex and match regex both
apply, `NextToken` raises a ParseError whose payload carries the
processed/unprocessed buffer split (and the position, its length); it does
not consume a character or return the error token, that code being
unreachable after the raise. -/
theorem C8_theorem :
    ∀ ps : PState, findRule tokens ps.state ps.buffer = Option.none →
      NextToken ps = .error (.lexError ("Expected " ++ stateName ps.state)
        ps.processedBuffer ps.buffer) := by
  intro ps h
  simp only [NextToken, h]

/-- C8 witness: the amended statement at a concrete stuck lexer state. -/
theorem C8_witness :
    NextToken ⟨[')'], [], .ATTRIBUTE, [], [], freshExpr, Option.none,
        Option.none⟩ =
      .error (.lexError ("Expected " ++ stateName .ATTRIBUTE) [] [')']) :=
  C8_theorem ⟨[')'], [], .ATTRIBUTE, [], [], freshExpr, Option.none,
    Option.none⟩ rfl

/-- C9: parsing the empty string returns `IdentityExpression` (without
running the lexer), it compiles to `IdentityFilter`, and the compiled
filter matches every candidate object under every expander — including
objects with no attributes. -/
theorem C9_theorem :
    Parse "" = .ok (.expr .identity) ∧
    CompileExpr .identity = .ok .identity ∧
    ∀ (e : Exp) (obj : Value), Matches e .identity obj = .ok true :=
  ⟨rfl, rfl, fun _ _ => rfl⟩

/-- C10: when the value-expansion strategy resolves the first path segment
to `None`, `Expand` yields no values and raises nothing; under attribute
expansion an attribute explicitly bound to `None` and an absent attribute
both resolve to `None` (`getattr(obj, name, None)`), so every comparison
operator node returns identical results on the two objects. -/
theorem C10_theorem :
    (∀ (e : Exp) (seg : String) (rest : List String) (obj : Value),
      getValue e obj (attrName e seg) = .ok .none →
      Expand e (seg :: rest) obj = ⟨[], Option.none⟩) ∧
    getValue .attribute (.obj [("a", .none)]) "a" = .ok .none ∧
    getValue .attribute (.obj []) "a" = .ok .none ∧
    ∀ (k : OpKind) (lp : Option String) (right : Value) (bv : Bool),
      Matches .attribute (.binOp k lp right bv) (.obj [("a", .none)]) =
        Matches .attribute (.binOp k lp right bv) (.obj []) := by
  refine ⟨expand_getValue_none, rfl, rfl, ?_⟩
  intro k lp right bv
  cases lp with
  | none => rfl
  | some s =>
    obtain ⟨seg, rest, hsplit⟩ := List.exists_cons_of_ne_nil (splitPath_ne_nil s)
    have h1 : getValue .attribute (.obj [("a", Value.none)])
        (attrName .attribute seg) = .ok .none := by
      simp [getValue, attrName, lookup_aNone_getD]
    have h2 : getValue .attribute (.obj ([] : List (String × Value)))
        (attrName .attribute seg) = .ok .none := rfl
    simp only [Matches, hsplit]
    rw [expand_getValue_none _ _ _ _ h1, expand_getValue_none _ _ _ _ h2]

/-- C10 witness: the short-circuit and the indistinguishability at a
concrete attribute and operator. -/
theorem C10_witness :
    Expand .attribute ["a"] (.obj [("a", .none)]) = ⟨[], Option.none⟩ ∧
    Matches .attribute (.binOp .equals (some "a") (.int 3) true)
        (.obj [("a", .none)]) =
      Matches .attribute (.binOp .equals (some "a") (.int 3) true) (.obj []) :=
  ⟨C10_theorem.1 .attribute "a" [] (.obj [("a", .none)]) rfl,
   C10_theorem.2.2.2 .equals (some "a") (.int 3) true⟩

/-- A DLL record of the `Context` docstring scenario. -/
def dllObj (n : String) (k : Int) : Value :=
  .obj [("name", .str n), ("num_functions", .int k)]

/-- Two sibling DLLs, each condition holding only on one of them. -/
def procSplit : Value :=
  .obj [("imported_dlls",
    .list [dllObj "CreateFileA" 1, dllObj "RegQueryValueEx" 2])]

/-- One DLL on which both conditions hold. -/
def procSame : Value :=
  .obj [("imported_dlls", .list [dllObj "RegQueryValueEx" 1])]

/-- The conjunction wrapped by the context filter in the C2 scenario. -/
def dllCond : Filt :=
  .and [.binOp .equals (some "name") (.str "RegQueryValueEx") true,
        .binOp .equals (some "num_functions") (.int 1) true]

/-- C2, counterexample: the claim says `Context.Matches(o)` is true iff some
value yielded by expanding the context path satisfies the sub-filter.  For
an object whose `a` is a list with one element satisfying `x is 1`, the
expansion of `a` (a one-segment path) yields exactly one value — the whole
list — and that yielded value does not satisfy the sub-filter (a list has no
`x` attribute, so the comparison returns False); yet `Context.Matches`
returns True, because the code iterates over the elements of each yielded
value rather than testing the yielded values themselves. -/
theorem C2_counterexample :
    Expand .attribute (splitPath "a") (.obj [("a", .list [.obj [("x", .int 1)]])]) =
      ⟨[.list [.obj [("x", .int 1)]]], Option.none⟩ ∧
    Matches .attribute (.binOp .equals (some "x") (.int 1) true)
      (.list [.obj [("x", .int 1)]]) = .ok false ∧
    Matches .attribute (.context "a" (.binOp .equals (some "x") (.int 1) true))
      (.obj [("a", .list [.obj [("x", .int 1)]])]) = .ok true :=
  ⟨rfl, rfl, rfl⟩

/-- C2, amended: `Context.Matches(o)` returns true iff some element (in the
Python iteration sense) of some value yielded by expanding the context path
satisfies the sub-filter — stated under the hypotheses that the expansion
raises no exception, every yielded value is iterable, and the sub-filter
returns a boolean on every element.  In particular the aliasing defence
holds: the context of the conjunction does not match the object whose two
sibling DLLs split the conditions between them, and does match the object
where both conditions hold on the same sibling. -/
theorem C2_theorem :
    (∀ (e : Exp) (p : String) (cond : Filt) (obj : Value) (vals : List Value),
      Expand e (splitPath p) obj = ⟨vals, Option.none⟩ →
      (∀ v ∈ vals, ∃ elems, iterElems v = some elems) →
      (∀ v ∈ vals, ∀ elems, iterElems v = some elems →
        ∀ el ∈ elems, ∃ b, Matches e cond el = .ok b) →
      (Matches e (.context p cond) obj = .ok true ↔
        ∃ v ∈ vals, ∃ elems, iterElems v = some elems ∧
          ∃ el ∈ elems, Matches e cond el = .ok true)) ∧
    Matches .attribute (.context "imported_dlls" dllCond) procSplit = .ok false ∧
    Matches .attribute (.context "imported_dlls" dllCond) procSame = .ok true := by
  refine ⟨?_, rfl, rfl⟩
  intro e p cond obj vals hexp h1 h2
  have hrw : Matches e (.context p cond) obj =
      ctxValsGo (Matches e cond) vals Option.none := by
    simp only [Matches, ctxVals, hexp]
  rw [hrw]
  exact ctxValsGo_ok_true_iff (Matches e cond) vals h1 h2

/-- C2 witness: the amended characterisation applied to the same-sibling
object. -/
theorem C2_witness :
    Matches .attribute (.context "imported_dlls" dllCond) procSame = .ok true := by
  have h := C2_theorem.1 .attribute "imported_dlls" dllCond procSame
    [.list [dllObj "RegQueryValueEx" 1]] rfl
    (by
      intro v hv
      rw [List.mem_singleton] at hv
      subst hv
      exact ⟨[dllObj "RegQueryValueEx" 1], rfl⟩)
    (by
      intro v hv elems helems el hel
      rw [List.mem_singleton] at hv
      subst hv
      have h3 : elems = [dllObj "RegQueryValueEx" 1] := by
        injection helems with h4
        exact h4.symm
      subst h3
      rw [List.mem_singleton] at hel
      subst hel
      exact ⟨true, rfl⟩)
  exact h.mpr ⟨.list [dllObj "RegQueryValueEx" 1], by simp,
    [dllObj "RegQueryValueEx" 1], rfl, dllObj "RegQueryValueEx" 1, by simp, rfl⟩

/-- Follows the spec's words for comparison with `iterElems`: the iterable
dispatch in which raw text strings are excluded from the iterable case. -/
def iterElemsStringLeaf : Value → Option (List Value)
  | .list vs => some vs
  | .dict entries => some (entries.map (fun kv => Value.str kv.1))
  | _ => Option.none

/-- Modelled from the spec (paragraph 4.4), solely for comparison with
`Expand`: the expansion in which a string resolved at a non-final segment is
a leaf — its characters are not iterated; the remaining path is resolved
against the string itself (the treat-as-single-nested-object branch). -/
def ExpandStringLeaf (e : Exp) : List String → Value → Gen
  | [] => fun _ => ⟨[], some .indexError⟩
  | seg :: rest =>
    let f := ExpandStringLeaf e rest
    fun obj =>
      match getValue e obj (attrName e seg) with
      | .error err => ⟨[], some err⟩
      | .ok v =>
        if v.isNone then ⟨[], Option.none⟩
        else if rest.isEmpty then ⟨[v], Option.none⟩
        else
          match v with
          | .dict entries => ⟨[.dict entries], Option.none⟩
          | _ =>
            match iterElemsStringLeaf v with
            | some elems => genConcat (elems.map f)
            | Option.none => f v

/-- C4, counterexample: the claim says a text string resolved at a non-final
segment is treated as a leaf and its characters are not iterated.  Under the
dict expander with path `a.b` and an object whose `a` is the empty string,
`Expand` takes the iterable branch and iterates zero characters, yielding
nothing and raising nothing; the string-as-leaf expansion the claim
describes would instead resolve `b` against the string itself and raise
AttributeError (a string has no `get`).  The two observably differ. -/
theorem C4_counterexample :
    Expand .dict ["a", "b"] (.dict [("a", .str "")]) = ⟨[], Option.none⟩ ∧
    ExpandStringLeaf .dict ["a", "b"] (.dict [("a", .str "")]) =
      ⟨[], some .attributeError⟩ ∧
    (Expand .dict ["a", "b"] (.dict [("a", .str "")])).err ≠
      (ExpandStringLeaf .dict ["a", "b"] (.dict [("a", .str "")])).err :=
  ⟨rfl, rfl, by decide⟩

/-- C4, amended: when the value resolved for a non-final segment is a text
string, `Expand` treats it as an iterable and fans out over the string's
one-character substrings, expanding each against the remaining path —
strings are not excluded from the iterable case (`_AtNonLeaf` has no string
guard). -/
theorem C4_theorem :
    ∀ (e : Exp) (seg r : String) (rest : List String) (s : String) (obj : Value),
      getValue e obj (attrName e seg) = .ok (.str s) →
      Expand e (seg :: r :: rest) obj =
        genConcat ((s.data.map (fun c => Value.str (String.mk [c]))).map
          (Expand e (r :: rest))) := by
  intro e seg r rest s obj h
  simp [Expand, h, Value.isNone, iterElems]

/-- C4 witness: the character fan-out at a concrete object and path. -/
theorem C4_witness :
    Expand .dict ["a", "b"] (.dict [("a", .str "xy")]) =
      genConcat ((("xy").data.map (fun c => Value.str (String.mk [c]))).map
        (Expand .dict ["b"])) :=
  C4_theorem .dict "a" "b" [] "xy" (.dict [("a", .str "xy")]) rfl

/-- The AST both C5 queries produce. -/
def c5AST : Expr :=
  .binary "or"
    [.binary "and"
      [.basic (some "a") (some "is") [.int 1] true,
       .basic (some "b") (some "is") [.int 2] true],
     .basic (some "c") (some "is") [.int 3] true]

/-- C5: `a is 1 and b is 2 or c is 3` parses to the same AST as
`(a is 1 and b is 2) or (c is 3)`: in each `Reduce` pass the `and`-tagged
binary expressions are combined before the `or`-tagged ones, so AND binds
tighter than OR. -/
theorem C5_theorem :
    Parse "a is 1 and b is 2 or c is 3" = .ok (.expr c5AST) ∧
    Parse "(a is 1 and b is 2) or (c is 3)" = .ok (.expr c5AST) :=
  ⟨rfl, rfl⟩

/-- C6: an `AndFilter` with no children matches every object, and so does an
`OrFilter` with no children (by its explicit empty-arguments check); with
children, both evaluate the stored list in order with short-circuit return:
a first child returning False settles an AND as False and a first child
returning True settles an OR as True, whatever the remaining children would
do, and otherwise evaluation proceeds with the remaining children. -/
theorem C6_theorem :
    (∀ (e : Exp) (obj : Value), Matches e (.and []) obj = .ok true) ∧
    (∀ (e : Exp) (obj : Value), Matches e (.or []) obj = .ok true) ∧
    (∀ (e : Exp) (c : Filt) (cs : List Filt) (obj : Value),
      Matches e c obj = .ok false → Matches e (.and (c :: cs)) obj = .ok false) ∧
    (∀ (e : Exp) (c : Filt) (cs : List Filt) (obj : Value),
      Matches e c obj = .ok true →
        Matches e (.and (c :: cs)) obj = MatchesAll e cs obj) ∧
    (∀ (e : Exp) (c : Filt) (cs : List Filt) (obj : Value),
      Matches e c obj = .ok true → Matches e (.or (c :: cs)) obj = .ok true) ∧
    (∀ (e : Exp) (c : Filt) (cs : List Filt) (obj : Value),
      Matches e c obj = .ok false →
        Matches e (.or (c :: cs)) obj = MatchesAny e cs obj) := by
  refine ⟨fun _ _ => rfl, fun _ _ => rfl, ?_, ?_, ?_, ?_⟩ <;>
    (intro e c cs obj h; simp [Matches, MatchesAll, MatchesAny, h])

/-- C6 witness: the short-circuit conjuncts at concrete children. -/
theorem C6_witness :
    Matches .attribute
      (.and [.binOp .equals (some "a") (.int 1) true, .identity]) (.obj []) =
      .ok false ∧
    Matches .attribute
      (.or [.identity, .binOp .equals (some "a") (.int 1) true]) (.obj []) =
      .ok true :=
  ⟨C6_theorem.2.2.1 .attribute (.binOp .equals (some "a") (.int 1) true)
      [.identity] (.obj []) rfl,
   C6_theorem.2.2.2.2.1 .attribute .identity
      [.binOp .equals (some "a") (.int 1) true] (.obj []) rfl⟩

/-- C7: `size not > 5` fails to parse — `InsertArg` re-checks `FlipAllowed`
once the operator is known and `>` is outside the allow-list — while
`name not contains "x"` parses to the contains expression with its boolean
flipped.  `FlipLogic` rejects a second `not` in one expression and a `not`
after a recorded argument, and `FlipAllowed` rejects exactly the stored
operators outside is/contains/inset/equals. -/
theorem C7_theorem :
    Parse "size not > 5" = .error (.lexError
      "Keyword not does not work against operator: >" ("size not > 5".data) []) ∧
    Parse "name not contains \"x\"" =
      .ok (.expr (.basic (some "name") (some "contains") [.str "x"] false)) ∧
    (allowNot "is" = true ∧ allowNot "contains" = true ∧
     allowNot "inset" = true ∧ allowNot "equals" = true ∧
     allowNot "Is" = true ∧
     allowNot ">" = false ∧ allowNot "<" = false ∧ allowNot ">=" = false ∧
     allowNot "!=" = false ∧ allowNot "regexp" = false) ∧
    (∀ (ps : PState) (g0 : List Char) (g1 : Option (List Char)),
      ps.flipped = some true →
      doAction .FlipLogic g0 g1 ps =
        .error (.parseError "The operator not can only be expressed once.")) ∧
    (∀ (ps : PState) (g0 : List Char) (g1 : Option (List Char)) (v : Value)
      (vs : List Value), ps.flipped ≠ some true →
      ps.currentExpression.args = v :: vs →
      doAction .FlipLogic g0 g1 ps =
        .error (.parseError "Unable to place the keyword not after an argument.")) ∧
    (∀ (ps : PState) (g0 : List Char) (g1 : Option (List Char)) (op : String),
      ps.flipped ≠ some true → ps.currentExpression.args = [] →
      ps.currentExpression.operator = some op → allowNot op = false →
      doAction .FlipLogic g0 g1 ps =
        .error (.parseError ("Keyword not does not work against operator: " ++ op))) := by
  refine ⟨rfl, rfl, by decide, ?_, ?_, ?_⟩
  · intro ps g0 g1 h
    simp [doAction, h]
  · intro ps g0 g1 v vs hne hargs
    have hb : (ps.flipped == some true) = false := beq_eq_false_iff_ne.mpr hne
    simp [doAction, hb, hargs]
  · intro ps g0 g1 op hne hargs hop hnot
    have hb : (ps.flipped == some true) = false := beq_eq_false_iff_ne.mpr hne
    simp [doAction, hb, hargs, FlipAllowed, hop, hnot]

/-- C7 witness: the three `FlipLogic` rejection rules at concrete states. -/
theorem C7_witness :
    doAction .FlipLogic [] Option.none
        ⟨[], [], .OPERATOR, [], [], freshExpr, some true, Option.none⟩ =
      .error (.parseError "The operator not can only be expressed once.") ∧
    doAction .FlipLogic [] Option.none
        ⟨[], [], .OPERATOR, [], [],
          ⟨some "a", some "is", [.int 1], true⟩, some false, Option.none⟩ =
      .error (.parseError "Unable to place the keyword not after an argument.") ∧
    doAction .FlipLogic [] Option.none
        ⟨[], [], .CHECKNOT, [], [],
          ⟨some "size", some ">", [], true⟩, some false, Option.none⟩ =
      .error (.parseError ("Keyword not does not work against operator: " ++ ">")) :=
  ⟨C7_theorem.2.2.2.1 _ [] Option.none rfl,
   C7_theorem.2.2.2.2.1 _ [] Option.none (.int 1) [] (by decide) rfl,
   C7_theorem.2.2.2.2.2 _ [] Option.none ">" (by decide) rfl rfl (by decide)⟩
